import Mathlib

/-!
Verification of the TimeProbe WCET analysis program (`time_probe.py`).

The execution-time values are real numbers in the program (numpy float64);
we model the data path in exact rational arithmetic (`ℚ`) where the program
only moves, compares and rounds values, and in `ℝ` for the GEV
distribution mathematics.  The GEV cdf/ppf and the L-moment fit are
provided to the program by external libraries (`scipy` via `lmoments3`);
those are modelled from the specification's formulas and are marked as
such in their doc comments.  Everything else is translated directly from
`time_probe.py`.
-/

namespace TimeProbe

/-- Error kinds.  `indexOutOfRange` models a Python/numpy `IndexError`
(an out-of-bounds write into a numpy array).  The remaining names are the
error kinds the specification's §7 prescribes; they are listed here so that
claims about them can be stated, the program itself never raises them. -/
inductive TPError where
  | indexOutOfRange
  | invalidBlockConfiguration
  | insufficientSampleSize
  deriving DecidableEq, Repr

/-- `np.max` over a (nonempty) slice: the program only applies it to
nonempty slices, for which this fold is the maximum. -/
def npMax (l : List ℚ) : ℚ := l.foldl max (l.headD 0)

/-- The slice `e_time[x : x + 10]` of line 165 of `time_probe.py`: the
window width `10` is hardcoded in the source, it is not the block size.
numpy slicing clamps at the end of the array, hence `drop`/`take`. -/
def slice10 (e : List ℚ) (x : ℕ) : List ℚ := (e.drop x).take 10

/-- `block_count = len(e_time) // block_size` (line 156). -/
def blockCount (e : List ℚ) (b : ℕ) : ℕ := e.length / b

/-- Number of iterations of the loop `for x in range(0, len(e_time),
block_size)` (line 164), i.e. `⌈len(e_time) / block_size⌉` for positive
block size. -/
def numIters (e : List ℚ) (b : ℕ) : ℕ := (e.length + b - 1) / b

/-- The block-maxima extraction of lines 156-166 of `time_probe.py`.  The
loop writes `np.max(e_time[x : x + 10])` into `e_time_max[index]` for
`index = 0, 1, ...`; `e_time_max` has `block_count` cells, so when the
loop runs more than `block_count` iterations the write raises a numpy
`IndexError`, modelled by `.error .indexOutOfRange`.  Block size `0` is
rejected by the argument parser and never reaches this code. -/
def eTimeMaxE (e : List ℚ) (b : ℕ) : Except TPError (List ℚ) :=
  if numIters e b ≤ blockCount e b then
    .ok ((List.range (numIters e b)).map fun i => npMax (slice10 e (i * b)))
  else .error .indexOutOfRange

/-- Block maxima as the specification states them: element `i` is the
maximum of `sample[i·b : (i+1)·b]`.  This definition follows the spec's
words and exists only to be compared with `eTimeMaxE`. -/
def specBlockMaxima (e : List ℚ) (b : ℕ) : List ℚ :=
  (List.range (e.length / b)).map fun i => npMax ((e.drop (i * b)).take b)

/-- `np.arange(start, stop, step)` length for positive step:
`⌈(stop − start) / step⌉`, clamped at zero. -/
def arangeLen (start stop step : ℚ) : ℕ := (⌈(stop - start) / step⌉).toNat

/-- `np.arange(start, stop, step)` in exact rational arithmetic. -/
def arange (start stop step : ℚ) : List ℚ :=
  (List.range (arangeLen start stop step)).map
    fun k : ℕ => start + (k : ℚ) * step

/-- `percentile = np.arange(1 / block_count, 1.01, 1 / block_count)`
(line 204 of `time_probe.py`), in exact rational arithmetic.  The program
only reaches this line with `block_count ≥ 1`. -/
def percentile (n : ℕ) : List ℚ := arange (1 / n) (101 / 100) (1 / n)

/-- A numpy float64 cell as the diagnostic pipeline observes it: a finite
real, `+inf`, or `-inf` (`np.isinf` distinguishes exactly these). -/
inductive NpVal where
  | fin : ℝ → NpVal
  | posInf : NpVal
  | negInf : NpVal

/-- `np.isinf` on one cell. -/
def NpVal.isinf : NpVal → Bool
  | .fin _ => false
  | .posInf => true
  | .negInf => true

/-- `e_time_ppf = np.where(np.isinf(e_time_ppf), 1, e_time_ppf)`
(line 208 of `time_probe.py`). -/
def replaceInfWith1 (l : List NpVal) : List NpVal :=
  l.map fun v => if v.isinf then NpVal.fin 1 else v

/-- Round half to even to the nearest integer, the rounding rule of
`np.around` (exact-arithmetic idealisation of the float64 operation). -/
def roundHalfEven (q : ℚ) : ℤ :=
  if 2 * (q - ⌊q⌋) < 1 then ⌊q⌋
  else if 1 < 2 * (q - ⌊q⌋) then ⌊q⌋ + 1
  else if ⌊q⌋ % 2 = 0 then ⌊q⌋ else ⌊q⌋ + 1

/-- `np.around(x, decimals=2)` (line 107 of `time_probe.py`), in exact
rational arithmetic. -/
def round2 (x : ℚ) : ℚ := (roundHalfEven (100 * x) : ℚ) / 100

/-- The data reader `read_data_file` of `time_probe.py` (lines 98-110),
on the parsed rows of the CSV file.  The loop `for row in reader:
my_array = np.asarray(row)` rebinds `my_array` at every row, so after the
loop only the last row remains (modelled by the fold; the empty-file case,
where `my_array` stays unbound and Python raises, is outside the claims
and is given the fold's initial value here).  Every value of that row is
then rounded to 2 decimal places. -/
def readDataFile (rows : List (List ℚ)) : List ℚ :=
  (rows.foldl (fun _ row => row) []).map round2

/-- Modelled from the spec: the L-moment front end of the external
`lmoments3` fit (`distr.gev.lmom_fit`, line 176 of `time_probe.py`), which
is library code not in this repository.  Per §4.2 of the specification it
fails with `InsufficientSampleSize` when fewer than 3 block maxima are
available, and otherwise computes the probability-weighted moments
`b0, b1, b2` and L-moments `l1 = b0`, `l2 = 2·b1 − b0`,
`l3 = 6·b2 − 6·b1 + b0` from the order statistics. -/
def lmoments (xs : List ℚ) : Except TPError (ℚ × ℚ × ℚ) :=
  let n := xs.length
  if n < 3 then .error .insufficientSampleSize
  else
    let b0 : ℚ := xs.sum / n
    let b1 : ℚ := (((xs.zip (List.range n)).map
      fun p => ((p.2 : ℚ) / (n - 1)) * p.1).sum) / n
    let b2 : ℚ := (((xs.zip (List.range n)).map
      fun p => (((p.2 : ℚ) * (p.2 - 1)) / ((n - 1) * (n - 2))) * p.1).sum) / n
    .ok (b0, 2 * b1 - b0, 6 * b2 - 6 * b1 + b0)

/-- The fit stage as the program runs it: block-maxima extraction followed
by the L-moment fit front end (lines 156-176 of `time_probe.py`). -/
def fitPipeline (e : List ℚ) (b : ℕ) : Except TPError (ℚ × ℚ × ℚ) :=
  (eTimeMaxE e b).bind lmoments

/-- GEV parameters: shape `k`, scale `sigma > 0`, location `mu`, as fitted
by the external library and consumed by the distribution evaluator. -/
structure GEVParams where
  k : ℝ
  sigma : ℝ
  mu : ℝ

/-- The GEV support expression `1 + k·(x − μ)/σ`. -/
noncomputable def gevT (g : GEVParams) (x : ℝ) : ℝ :=
  1 + g.k * (x - g.mu) / g.sigma

open Classical in
/-- Modelled from the spec: the GEV cdf evaluated by the external
`scipy`/`lmoments3` distribution object (`fitted_gev.cdf`, lines 184 and
239 of `time_probe.py`), which is library code not in this repository.
Per §4.4 of the specification: for k ≠ 0 on the support
`1 + k·(x−μ)/σ > 0` the value is `exp(−(1 + k·(x−μ)/σ)^(−1/k))`, outside
the support it is 0 for k > 0 (x below) and 1 for k < 0 (x above); for
k = 0 it is the Gumbel cdf `exp(−exp(−(x−μ)/σ))`. -/
noncomputable def gevCdf (g : GEVParams) (x : ℝ) : ℝ :=
  if g.k = 0 then Real.exp (-Real.exp (-(x - g.mu) / g.sigma))
  else if 0 < gevT g x then Real.exp (-(gevT g x ^ (-1 / g.k)))
  else if 0 < g.k then 0 else 1

/-- Modelled from the spec: the survival function `1 − cdf(x)` of §4.4,
the exceedance probability the program reports (line 239 of
`time_probe.py` computes it literally as `1 - fitted_gev.cdf(b)`). -/
noncomputable def specSurvival (g : GEVParams) (x : ℝ) : ℝ :=
  1 - gevCdf g x

/-- Modelled from the spec: the GEV quantile function (ppf) of §4.4 on
the open interval p ∈ (0, 1): for k ≠ 0,
`μ + (σ/k)·((−ln p)^(−k) − 1)`; for k = 0, `μ − σ·ln(−ln p)`. -/
noncomputable def gevPpf (g : GEVParams) (p : ℝ) : ℝ :=
  if g.k = 0 then g.mu - g.sigma * Real.log (-Real.log p)
  else g.mu + g.sigma / g.k * ((-Real.log p) ^ (-g.k) - 1)

open Classical in
/-- Modelled from the spec: the external library's vectorised ppf as the
diagnostic pipeline observes it (`fitted_gev.ppf(percentile)`, line 205
of `time_probe.py`).  Per §4.4, `p = 0` and `p = 1` map to the
distribution's support bounds: the bound is the finite `μ − σ/k` when it
is finite (lower bound for k > 0, upper bound for k < 0) and the
corresponding infinity otherwise — in particular `p = 1` with k ≥ 0
yields `+inf`, the infinity of claim C6. -/
noncomputable def gevPpfN (g : GEVParams) (p : ℝ) : NpVal :=
  if p ≤ 0 then (if 0 < g.k then .fin (g.mu - g.sigma / g.k) else .negInf)
  else if 1 ≤ p then
    (if g.k < 0 then .fin (g.mu - g.sigma / g.k) else .posInf)
  else .fin (gevPpf g p)

/-- Lines 204-208 of `time_probe.py`: evaluate the ppf on the percentile
vector for `n = block_count` and replace infinite cells by 1. -/
noncomputable def eTimePpf (g : GEVParams) (n : ℕ) : List NpVal :=
  replaceInfWith1 ((percentile n).map fun p : ℚ => gevPpfN g (p : ℝ))

/-- The data produced by the tail of `calc_wcet` (lines 204-241 of
`time_probe.py`, plotting aside): the clamped ppf values for the Q-Q
diagnostic and the optional exceedance probability. -/
structure WcetOutputs where
  ppfVals : List NpVal
  exceed : Option ℝ

/-- The tail of `calc_wcet`: the Q-Q ppf values are always built; the
exceedance probability `1 - fitted_gev.cdf(boundary_value)` is computed
only when a boundary value was supplied (`if boundary_value != None`,
line 238), otherwise that step is skipped without error. -/
noncomputable def calcTail (g : GEVParams) (n : ℕ) (bval : Option ℝ) :
    WcetOutputs where
  ppfVals := eTimePpf g n
  exceed := bval.map fun b => 1 - gevCdf g b

/-- When the block size does not divide the sample length, the extraction
loop runs one more iteration than the maxima array has cells. -/
lemma blockCount_lt_numIters (e : List ℚ) (b : ℕ) (hb : 0 < b)
    (hnd : ¬ b ∣ e.length) : blockCount e b < numIters e b := by
  have hmod : e.length % b ≠ 0 := fun h => hnd (Nat.dvd_of_mod_eq_zero h)
  have hdm : b * (e.length / b) + e.length % b = e.length :=
    Nat.div_add_mod e.length b
  have hlt : e.length % b < b := Nat.mod_lt _ hb
  have key : ∀ t r : ℕ, t + r = e.length → 1 ≤ r → r < b →
      e.length + b - 1 = (r - 1) + (t + b) := by intro t r h1 h2 h3; omega
  have h1 : e.length + b - 1 =
      (e.length % b - 1) + b * (e.length / b + 1) := by
    rw [key (b * (e.length / b)) (e.length % b) hdm (by omega) hlt]
    ring_nf
  unfold numIters blockCount
  rw [h1, Nat.add_mul_div_left _ _ hb,
    Nat.div_eq_of_lt (lt_of_le_of_lt (Nat.sub_le _ 1) hlt)]
  omega

/-- Claim C1 (code bug): block-maxima extraction is supposed to take the
maximum of each block `sample[i·b : (i+1)·b]`, but line 165 of
`time_probe.py` hardcodes the window width `10`
(`np.max(e_time[x : x + 10])`), so for any block size other than 10 the
computed maxima differ from the spec's formula: on sample `[1,2,3,4]` with
block size 2 the program produces `[4, 4]` while the claim's formula gives
`[2, 4]`. -/
theorem eTimeMaxE_uses_ten_wide_window_not_blockSize :
    eTimeMaxE [1, 2, 3, 4] 2 = .ok [4, 4] ∧
    specBlockMaxima [1, 2, 3, 4] 2 = [2, 4] ∧
    ([4, 4] : List ℚ) ≠ [2, 4] :=
  ⟨rfl, rfl, by decide⟩

/-- Claim C2 (code bug): line 168 of `time_probe.py` is
`np.sort(e_time_max)`, whose sorted copy is discarded (`np.sort` is not
in-place), so the block-maxima sequence handed to the GEV fit and the
Q-Q pairing is NOT sorted: with the default block size 10, a 20-element
sample whose block maxima are 9 and 2 reaches downstream as `[9, 2]`. -/
theorem eTimeMax_unsorted_reaches_downstream :
    eTimeMaxE [9, 1, 1, 1, 1, 1, 1, 1, 1, 1,
               2, 1, 1, 1, 1, 1, 1, 1, 1, 1] 10 = .ok [9, 2] ∧
    ¬ List.Sorted (· ≤ ·) [(9 : ℚ), 2] :=
  ⟨rfl, by decide⟩

/-- Claim C3 (counterexample): on a 3-element sample with block size 2
(3 mod 2 ≠ 0) the extraction does not fail with
`InvalidBlockConfiguration`; it crashes with an out-of-bounds write
(numpy `IndexError`). -/
theorem eTimeMaxE_nonmultiple_not_invalidBlockConfiguration :
    eTimeMaxE [1, 1, 1] 2 = .error .indexOutOfRange ∧
    eTimeMaxE [1, 1, 1] 2 ≠ .error .invalidBlockConfiguration := by
  refine ⟨rfl, ?_⟩
  rw [show eTimeMaxE [1, 1, 1] 2 = .error .indexOutOfRange from rfl]
  simp

/-- Claim C3 (amended): for every sample length N and positive block size
b with N mod b ≠ 0, block-maxima extraction fails with an index
out-of-range error (the loop writes past the end of the `block_count`-cell
maxima array), not with a named `InvalidBlockConfiguration` error. -/
theorem eTimeMaxE_nonmultiple_indexError (e : List ℚ) (b : ℕ)
    (hb : 0 < b) (hnd : ¬ b ∣ e.length) :
    eTimeMaxE e b = .error .indexOutOfRange := by
  unfold eTimeMaxE
  rw [if_neg (Nat.not_le.mpr (blockCount_lt_numIters e b hb hnd))]

/-- Concrete instance of `eTimeMaxE_nonmultiple_indexError`: 3 execution
times with block size 2. -/
theorem eTimeMaxE_nonmultiple_indexError_witness :
    eTimeMaxE [1, 1, 1] 2 = .error .indexOutOfRange :=
  eTimeMaxE_nonmultiple_indexError [1, 1, 1] 2 (by decide) (by decide)

/-- Claim C9: fitting fails with `InsufficientSampleSize` whenever fewer
than 3 block maxima are available; in particular the 10-element sample
`[1,5,3,9,2,7,4,8,6,10]` with block size 10 yields the single block
maximum `[10]` and the fit fails with `InsufficientSampleSize`. -/
theorem lmomFit_insufficientSampleSize :
    (∀ xs : List ℚ, xs.length < 3 →
      lmoments xs = .error .insufficientSampleSize) ∧
    eTimeMaxE [1, 5, 3, 9, 2, 7, 4, 8, 6, 10] 10 = .ok [10] ∧
    fitPipeline [1, 5, 3, 9, 2, 7, 4, 8, 6, 10] 10 =
      .error .insufficientSampleSize := by
  refine ⟨fun xs h => ?_, rfl, rfl⟩
  simp only [lmoments]
  rw [if_pos h]

/-- Concrete instance of `lmomFit_insufficientSampleSize`: the singleton
maxima list. -/
theorem lmomFit_insufficientSampleSize_witness :
    lmoments [10] = .error .insufficientSampleSize :=
  lmomFit_insufficientSampleSize.1 [10] (by decide)

/-- Claim C10: with more than one row in the CSV file, `read_data_file`
silently keeps only the last row (the reader loop rebinds its row variable
at every row and no error or warning is produced), and every retained
value is rounded to 2 decimal places; the result does not depend on the
earlier rows at all. -/
theorem readDataFile_keeps_only_last_row (pre : List (List ℚ))
    (lastRow : List ℚ) (hpre : pre ≠ []) :
    readDataFile (pre ++ [lastRow]) = lastRow.map round2 ∧
    ∀ pre2 : List (List ℚ),
      readDataFile (pre2 ++ [lastRow]) = readDataFile (pre ++ [lastRow]) := by
  constructor
  · unfold readDataFile
    rw [List.foldl_append]
    rfl
  · intro pre2
    unfold readDataFile
    rw [List.foldl_append, List.foldl_append]
    rfl

/-- Concrete instance of `readDataFile_keeps_only_last_row`: two rows,
the first is dropped, the value 2.345 of the second rounds to 2.34
(half-to-even, as `np.around` rounds). -/
theorem readDataFile_keeps_only_last_row_witness :
    readDataFile [[1], [469 / 200]] = [469 / 200].map round2 ∧
    readDataFile [[1], [469 / 200]] = [117 / 50] := by
  refine ⟨(readDataFile_keeps_only_last_row [[1]] [469 / 200] (by decide)).1,
    ?_⟩
  have h1 : readDataFile [[1], [469 / 200]] = [round2 (469 / 200)] := rfl
  rw [h1]
  unfold round2 roundHalfEven
  norm_num

/-- Clamping infinities does not change the number of cells. -/
lemma replaceInfWith1_length (l : List NpVal) :
    (replaceInfWith1 l).length = l.length := by
  simp [replaceInfWith1]

/-- The number of percentile points is the `np.arange` count. -/
lemma percentile_length (n : ℕ) :
    (percentile n).length = arangeLen (1 / n) (101 / 100) (1 / n) := by
  unfold percentile arange
  rw [List.length_map, List.length_range]

/-- The diagnostic ppf sequence has one cell per percentile point. -/
lemma eTimePpf_length (g : GEVParams) (n : ℕ) :
    (eTimePpf g n).length = arangeLen (1 / n) (101 / 100) (1 / n) := by
  unfold eTimePpf
  rw [replaceInfWith1_length, List.length_map, percentile_length]

/-- Branch lemma: Gumbel case of the cdf. -/
lemma gevCdf_k_zero (g : GEVParams) (h : g.k = 0) (x : ℝ) :
    gevCdf g x = Real.exp (-Real.exp (-(x - g.mu) / g.sigma)) := by
  unfold gevCdf
  rw [if_pos h]

/-- Branch lemma: cdf inside the support for k ≠ 0. -/
lemma gevCdf_in_support (g : GEVParams) (hk : g.k ≠ 0) (x : ℝ)
    (hx : 0 < gevT g x) :
    gevCdf g x = Real.exp (-(gevT g x ^ (-1 / g.k))) := by
  unfold gevCdf
  rw [if_neg hk, if_pos hx]

/-- Branch lemma: cdf below the support for k > 0. -/
lemma gevCdf_below_support (g : GEVParams) (hk : 0 < g.k) (x : ℝ)
    (hx : ¬ 0 < gevT g x) : gevCdf g x = 0 := by
  unfold gevCdf
  rw [if_neg (ne_of_gt hk), if_neg hx, if_pos hk]

/-- Branch lemma: cdf above the support for k < 0. -/
lemma gevCdf_above_support (g : GEVParams) (hk : g.k < 0) (x : ℝ)
    (hx : ¬ 0 < gevT g x) : gevCdf g x = 1 := by
  unfold gevCdf
  rw [if_neg (ne_of_lt hk), if_neg hx, if_neg (not_lt.mpr hk.le)]

/-- The cdf takes values in `[0, 1]`: lower bound. -/
lemma gevCdf_nonneg (g : GEVParams) (x : ℝ) : 0 ≤ gevCdf g x := by
  unfold gevCdf
  split_ifs <;> first | exact (Real.exp_pos _).le | norm_num

/-- The cdf takes values in `[0, 1]`: upper bound. -/
lemma gevCdf_le_one (g : GEVParams) (x : ℝ) : gevCdf g x ≤ 1 := by
  unfold gevCdf
  split_ifs with h1 h2 h3
  · exact Real.exp_le_one_iff.mpr (neg_nonpos.mpr (Real.exp_pos _).le)
  · exact Real.exp_le_one_iff.mpr
      (neg_nonpos.mpr (Real.rpow_nonneg (le_of_lt h2) _))
  · norm_num
  · norm_num

/-- Claim C4: the reported exceedance probability for a boundary value b
is exactly `survival(b) = 1 − cdf(b)`, and when no boundary value is
supplied the exceedance step is skipped (`none`, not an error) while the
other outputs (here the Q-Q ppf data) are produced unchanged. -/
theorem exceedance_eq_survival_and_optional (g : GEVParams) (n : ℕ) :
    (∀ b : ℝ, (calcTail g n (some b)).exceed = some (specSurvival g b)) ∧
    (calcTail g n none).exceed = none ∧
    ∀ b : ℝ, (calcTail g n none).ppfVals = (calcTail g n (some b)).ppfVals :=
  ⟨fun _ => rfl, rfl, fun _ => rfl⟩

/-- Claim C5 (counterexample): for 101 block maxima the percentile vector
`np.arange(1/101, 1.01, 1/101)` has 102 entries (its last entry,
102/101, exceeds 1), so the ppf-value sequence built for the Q-Q pairing
does not have length n = 101. -/
theorem ppf_count_ne_blockCount_at_101 :
    (eTimePpf ⟨0, 1, 0⟩ 101).length = 102 ∧ (102 : ℕ) ≠ 101 := by
  refine ⟨?_, by decide⟩
  rw [eTimePpf_length]
  unfold arangeLen
  norm_num
  rw [show ⌈(10101 : ℚ) / 100⌉ = (102 : ℤ) by
    rw [Int.ceil_eq_iff]
    norm_num]
  rfl

/-- Claim C5 (amended): for every block count n with 1 ≤ n ≤ 100 (which
includes every run with the default block size and at most 1000 samples),
the diagnostic ppf sequence has length exactly n and pairs element-wise
with the n block maxima; for n > 100 the percentile vector has more than
n entries (claim C5 as stated fails there). -/
theorem ppf_count_eq_blockCount_le_100 (g : GEVParams) (n : ℕ)
    (h1 : 1 ≤ n) (h2 : n ≤ 100) :
    (eTimePpf g n).length = n ∧
    ∀ emax : List ℚ, emax.length = n →
      ((eTimePpf g n).zip emax).length = n := by
  have hlen : (eTimePpf g n).length = n := by
    rw [eTimePpf_length]
    unfold arangeLen
    have hn : (n : ℚ) ≠ 0 := Nat.cast_ne_zero.mpr (by omega)
    have hr : ((101 : ℚ) / 100 - 1 / n) / (1 / n) = 101 * n / 100 - 1 := by
      field_simp
      ring
    have hc : ⌈((101 : ℚ) / 100 - 1 / n) / (1 / n)⌉ = (n : ℤ) := by
      rw [hr, Int.ceil_eq_iff]
      constructor
      · have h1q : (1 : ℚ) ≤ (n : ℚ) := by exact_mod_cast h1
        push_cast
        nlinarith
      · have h2q : (n : ℚ) ≤ 100 := by exact_mod_cast h2
        push_cast
        nlinarith
    rw [hc, Int.toNat_natCast]
  exact ⟨hlen, fun emax he => by rw [List.length_zip, hlen, he, min_self]⟩

/-- Concrete instance of `ppf_count_eq_blockCount_le_100`: three block
maxima give three diagnostic ppf values. -/
theorem ppf_count_eq_blockCount_le_100_witness :
    (1 : ℕ) ≤ 3 ∧ (3 : ℕ) ≤ 100 ∧ (eTimePpf ⟨0, 1, 0⟩ 3).length = 3 ∧
    ((eTimePpf ⟨0, 1, 0⟩ 3).zip ([1, 2, 3] : List ℚ)).length = 3 := by
  obtain ⟨ha, hb⟩ :=
    ppf_count_eq_blockCount_le_100 ⟨0, 1, 0⟩ 3 (by decide) (by decide)
  exact ⟨by decide, by decide, ha, hb ([1, 2, 3] : List ℚ) rfl⟩

/-- Claim C6: after the clamping step `np.where(np.isinf(e_time_ppf), 1,
e_time_ppf)`, the ppf sequence used for the Q-Q pairing contains no
infinite value; the infinity produced at the p → 1 percentile boundary is
replaced by the finite sentinel 1, as the replacement of `+inf` shows. -/
theorem ppf_values_no_infinities :
    (∀ (g : GEVParams) (n : ℕ),
      ((eTimePpf g n).all fun v => !v.isinf) = true) ∧
    replaceInfWith1 [NpVal.posInf] = [NpVal.fin 1] := by
  refine ⟨fun g n => ?_, rfl⟩
  simp only [eTimePpf, replaceInfWith1, List.all_eq_true]
  intro v hv
  rw [List.mem_map] at hv
  obtain ⟨w, _, rfl⟩ := hv
  cases w <;> rfl

/-- Claim C7: for a fixed fitted GEV distribution (scale > 0) the cdf is
non-decreasing, hence the exceedance probability `1 − cdf(b)` is
non-increasing in the boundary value b. -/
theorem gevCdf_monotone (g : GEVParams) (hs : 0 < g.sigma) (x y : ℝ)
    (hxy : x ≤ y) :
    gevCdf g x ≤ gevCdf g y ∧ specSurvival g y ≤ specSurvival g x := by
  have main : gevCdf g x ≤ gevCdf g y := by
    rcases lt_trichotomy g.k 0 with hk | hk | hk
    · -- k < 0 : the support expression is antitone in x
      have hT : gevT g y ≤ gevT g x := by
        have hd : gevT g x - gevT g y = g.k * (x - y) / g.sigma := by
          unfold gevT
          ring
        have h0 : 0 ≤ g.k * (x - y) := by
          nlinarith [mul_nonneg (neg_nonneg.mpr hk.le)
            (by linarith : (0 : ℝ) ≤ y - x)]
        nlinarith [div_nonneg h0 hs.le]
      by_cases hTy : 0 < gevT g y
      · have hTx : 0 < gevT g x := lt_of_lt_of_le hTy hT
        rw [gevCdf_in_support g (ne_of_lt hk) x hTx,
          gevCdf_in_support g (ne_of_lt hk) y hTy]
        have hc : 0 ≤ -1 / g.k :=
          (div_pos_of_neg_of_neg (by norm_num) hk).le
        exact Real.exp_le_exp.mpr
          (neg_le_neg (Real.rpow_le_rpow hTy.le hT hc))
      · rw [gevCdf_above_support g hk y hTy]
        exact gevCdf_le_one g x
    · -- k = 0 : Gumbel case
      rw [gevCdf_k_zero g hk x, gevCdf_k_zero g hk y]
      have h1 : -(y - g.mu) / g.sigma ≤ -(x - g.mu) / g.sigma := by
        rw [neg_div, neg_div]
        exact neg_le_neg ((div_le_div_iff_of_pos_right hs).mpr (by linarith))
      exact Real.exp_le_exp.mpr (neg_le_neg (Real.exp_le_exp.mpr h1))
    · -- k > 0 : the support expression is monotone in x
      have hT : gevT g x ≤ gevT g y := by
        have hd : gevT g y - gevT g x = g.k * (y - x) / g.sigma := by
          unfold gevT
          ring
        have h0 : 0 ≤ g.k * (y - x) := mul_nonneg hk.le (by linarith)
        nlinarith [div_nonneg h0 hs.le]
      by_cases hTx : 0 < gevT g x
      · have hTy : 0 < gevT g y := lt_of_lt_of_le hTx hT
        rw [gevCdf_in_support g (ne_of_gt hk) x hTx,
          gevCdf_in_support g (ne_of_gt hk) y hTy]
        have hc : -1 / g.k ≤ 0 :=
          (div_neg_of_neg_of_pos (by norm_num) hk).le
        exact Real.exp_le_exp.mpr
          (neg_le_neg (Real.rpow_le_rpow_of_nonpos hTx hT hc))
      · rw [gevCdf_below_support g hk x hTx]
        exact gevCdf_nonneg g y
  refine ⟨main, ?_⟩
  unfold specSurvival
  linarith

/-- Concrete instance of `gevCdf_monotone` at shape 1, scale 1,
location 0, boundaries 0 ≤ 1. -/
theorem gevCdf_monotone_witness :
    (0 : ℝ) < (GEVParams.mk 1 1 0).sigma ∧ (0 : ℝ) ≤ (1 : ℝ) ∧
    gevCdf ⟨1, 1, 0⟩ 0 ≤ gevCdf ⟨1, 1, 0⟩ 1 ∧
    specSurvival ⟨1, 1, 0⟩ 1 ≤ specSurvival ⟨1, 1, 0⟩ 0 :=
  ⟨by norm_num, by norm_num,
    gevCdf_monotone ⟨1, 1, 0⟩ (by norm_num) 0 1 (by norm_num)⟩

/-- Claim C8: for every fitted GEV distribution (scale > 0) and every x
strictly inside the support (`1 + k·(x−μ)/σ > 0`, which for k = 0 is all
of ℝ), the cdf/ppf round trip is exact: `ppf(cdf(x)) = x` — in exact real
arithmetic the identity holds with no error at all, hence in particular
within any floating tolerance. -/
theorem gevPpf_gevCdf_roundtrip (g : GEVParams) (hs : 0 < g.sigma)
    (x : ℝ) (hx : 0 < gevT g x) : gevPpf g (gevCdf g x) = x := by
  by_cases hk : g.k = 0
  · rw [gevCdf_k_zero g hk x]
    unfold gevPpf
    rw [if_pos hk, Real.log_exp, neg_neg, Real.log_exp]
    field_simp
  · rw [gevCdf_in_support g hk x hx]
    unfold gevPpf
    rw [if_neg hk, Real.log_exp, neg_neg]
    have hT : (gevT g x ^ (-1 / g.k)) ^ (-g.k) = gevT g x := by
      rw [← Real.rpow_mul hx.le,
        show -1 / g.k * -g.k = 1 by field_simp, Real.rpow_one]
    rw [hT]
    unfold gevT
    field_simp
    ring

/-- Concrete instance of `gevPpf_gevCdf_roundtrip` at shape 1, scale 1,
location 0, x = 1 (inside the support: 1 + 1·(1−0)/1 = 2 > 0). -/
theorem gevPpf_gevCdf_roundtrip_witness :
    (0 : ℝ) < (GEVParams.mk 1 1 0).sigma ∧ 0 < gevT ⟨1, 1, 0⟩ 1 ∧
    gevPpf ⟨1, 1, 0⟩ (gevCdf ⟨1, 1, 0⟩ 1) = 1 :=
  ⟨by norm_num, by norm_num [gevT],
    gevPpf_gevCdf_roundtrip ⟨1, 1, 0⟩ (by norm_num) 1 (by norm_num [gevT])⟩

end TimeProbe
